import Mathlib

/-!
Verification development for the famly-deposit-exporter browser script
(`src/script-demo.js` and `src/return-detector.js`).

The rendered page is modelled as a rose tree of element and text nodes.
An element reference is the list of child indices leading from a root node
down to the element, so distinct nodes carry distinct references (this
models JS object identity).  JS strings are Lean strings; the regular
expressions the script uses are implemented as explicit character-list
matchers, each documented at its definition.
-/

/-- A DOM node: either a text node or an element with a tag name and children. -/
inductive Dom where
  | text : String → Dom
  | elem : String → List Dom → Dom

/-- Children of a node (text nodes have none). -/
def Dom.children : Dom → List Dom
  | .text _ => []
  | .elem _ cs => cs

mutual

/-- JS `node.textContent`: concatenation of all descendant text, in document order. -/
def Dom.textContent : Dom → String
  | .text s => s
  | .elem _ cs => textContentList cs

def textContentList : List Dom → String
  | [] => ""
  | c :: cs => c.textContent ++ textContentList cs

end

mutual

/-- References (child-index paths) of all strict-descendant elements of a node
whose tag equals `t`, in document (pre-)order.  This is the semantics of
`root.querySelectorAll(t)` for a plain tag-name selector. -/
def subPaths (t : String) : Dom → List (List Nat)
  | .text _ => []
  | .elem _ cs => subPathsList t 0 cs

def subPathsList (t : String) : Nat → List Dom → List (List Nat)
  | _, [] => []
  | i, c :: cs =>
    (match c with
     | .elem tag _ => if tag == t then [[i]] else []
     | .text _ => []) ++ (subPaths t c).map (fun q => i :: q) ++ subPathsList t (i + 1) cs

end

/-- Resolve a child-index path from `root` to the node it references. -/
def nodeAt (root : Dom) (path : List Nat) : Option Dom :=
  match path with
  | [] => some root
  | i :: q =>
    match (Dom.children root).get? i with
    | some c => nodeAt c q
    | none => none

/-- Text content of the node referenced by `path` under `root` (empty if the
path resolves to nothing; paths produced by `subPaths` always resolve). -/
def textAt (root : Dom) (path : List Nat) : String :=
  match nodeAt root path with
  | some n => n.textContent
  | none => ""

/-- JS `element.parentElement` for a path reference: `none` at the root. -/
def parentPath (p : List Nat) : Option (List Nat) :=
  if p = [] then none else some p.dropLast

/-- ASCII whitespace, the relevant fragment of the JS `\s` class / `trim()`. -/
def isJsSpace (c : Char) : Bool :=
  c == ' ' || c == '\t' || c == '\n' || c == '\r'

/-- JS `String.prototype.trim()`: strip leading and trailing whitespace. -/
def jsTrim (s : String) : String :=
  ⟨((s.data.dropWhile isJsSpace).reverse.dropWhile isJsSpace).reverse⟩

/-- Does `hay` start with `needle`? (helper for the substring test). -/
def leadsWith : List Char → List Char → Bool
  | [], _ => true
  | _ :: _, [] => false
  | a :: as, b :: bs => a == b && leadsWith as bs

/-- JS `String.prototype.includes`: `needle` occurs somewhere in `hay`. -/
def hasSubstr (needle : List Char) : List Char → Bool
  | [] => leadsWith needle []
  | hay@(_ :: t) => leadsWith needle hay || hasSubstr needle t

/-- A CSS selector, as far as the script exercises selector semantics:
a plain tag-name selector, or a syntactically invalid selector (on which
the underlying DOM query throws). -/
inductive Selector where
  | tag : String → Selector
  | invalid : Selector

/-- The underlying `root.querySelectorAll(sel)`: throws (models the DOM
`SyntaxError`) on an invalid selector, otherwise returns all matches in
document order. -/
def rawQuerySelectorAll (sel : Selector) (root : Dom) : Except String (List (List Nat)) :=
  match sel with
  | .tag t => .ok (subPaths t root)
  | .invalid => .error "SyntaxError: invalid selector"

namespace DOMUtils

/-- `DOMUtils.querySelectorAll` (script-demo.js lines 138-145 and
return-detector.js lines 31-38): catch the raw query's exception and
return the empty list. -/
def querySelectorAll (sel : Selector) (root : Dom) : List (List Nat) :=
  match rawQuerySelectorAll sel root with
  | .ok es => es
  | .error _ => []

/-- `DOMUtils.querySelector` (script-demo.js lines 123-130 and
return-detector.js lines 22-29): first match in document order, `null`
both when nothing matches and when the raw query throws. -/
def querySelector (sel : Selector) (root : Dom) : Option (List Nat) :=
  match rawQuerySelectorAll sel root with
  | .ok es => es.head?
  | .error _ => none

/-- `DOMUtils.elementContainsText`: the trimmed text content contains `t`. -/
def elementContainsText (node : Dom) (t : String) : Bool :=
  hasSubstr t.data (jsTrim node.textContent).data

/-- `DOMUtils.findElementsByText`: all elements with the given tag whose
trimmed text content equals `text` exactly. -/
def findElementsByText (tagName : String) (text : String) (root : Dom) : List (List Nat) :=
  (querySelectorAll (Selector.tag tagName) root).filter
    (fun p => jsTrim (textAt root p) == text)

/-- `DOMUtils.findAncestor`: starting from the node itself, walk up through
parents, testing at most `fuel` nodes, and return the first one satisfying
`pred` (the source's `maxDepth` bound, 8 at the call site). -/
def findAncestor (root : Dom) (pred : Dom → Bool) : Option (List Nat) → Nat → Option (List Nat)
  | none, _ => none
  | some _, 0 => none
  | some p, fuel + 1 =>
    match nodeAt root p with
    | none => none
    | some node =>
      if pred node then some p else findAncestor root pred (parentPath p) fuel

end DOMUtils

/-! ## Character classes and regular-expression matchers -/

/-- The character class `[0-9,.]` (identically, `[\d,.]`). -/
def isAmountChar (c : Char) : Bool :=
  c.isDigit || c == ',' || c == '.'

/-- The character class `[€$£]` (`CONFIG.SELECTORS.DEPOSITS.CURRENCY_SYMBOLS`). -/
def isCurrencyChar (c : Char) : Bool :=
  c == '€' || c == '$' || c == '£'

/-- `CONFIG.SELECTORS.DEPOSITS.CURRENCY_SYMBOLS`, in source order. -/
def currencySymbols : List String := ["€", "$", "£"]

/-- The test `/\d+\.\d+|\d+,\d+/.test(text)` from script-demo.js line 355:
such a match exists in `text` exactly when some window of three consecutive
characters is digit, separator (`.` or `,`), digit. -/
def hasNumPattern : List Char → Bool
  | a :: b :: c :: rest =>
    (a.isDigit && (b == '.' || b == ',') && c.isDigit) || hasNumPattern (b :: c :: rest)
  | _ => false

/-- Consume one or more `d` characters, returning the remainder (the token
`d+` of return-detector.js's number pattern, see `brokenNumPattern`). -/
def dRun : List Char → Option (List Char)
  | 'd' :: rest => some (rest.dropWhile (· == 'd'))
  | _ => none

/-- First alternative of return-detector.js line 106, matched at the head of
the list.  The source writes the regex literal `/\\d+\\.\\d+|\\d+,\\d+/`, in
which `\\` is an escaped backslash: the first alternative is literal `\`,
then `d+`, then literal `\`, then `.` (any character except a line
terminator), then literal `\`, then `d+`. -/
def alt1At (l : List Char) : Bool :=
  match l with
  | '\\' :: r1 =>
    match dRun r1 with
    | some ('\\' :: c :: r2) =>
      if c = '\n' || c = '\r' then false
      else
        match r2 with
        | '\\' :: r3 => (dRun r3).isSome
        | _ => false
    | _ => false
  | _ => false

/-- Second alternative of return-detector.js line 106, matched at the head:
literal `\`, `d+`, a comma, literal `\`, `d+`. -/
def alt2At (l : List Char) : Bool :=
  match l with
  | '\\' :: r1 =>
    match dRun r1 with
    | some (',' :: '\\' :: r2) => (dRun r2).isSome
    | _ => false
  | _ => false

/-- The test `/\\d+\\.\\d+|\\d+,\\d+/.test(text)` from return-detector.js
line 106: because the backslashes are doubled inside a regex literal, the
pattern only matches text containing literal backslash characters. -/
def brokenNumPattern : List Char → Bool
  | [] => false
  | l@(_ :: t) => alt1At l || alt2At l || brokenNumPattern t

/-- The anchored match `text.match(/^([€$£]?)\s*([\d,.]+)$/)` (script-demo.js
line 415; return-detector.js line 157 uses `[0-9,.]` for the same class):
an optional currency symbol, then whitespace, then one or more amount
characters reaching the end.  Returns the two capture groups.  The greedy
match is deterministic because the three classes are disjoint. -/
def splitAmount (s : String) : Option (String × String) :=
  let l := s.data
  let sr : String × List Char :=
    match l with
    | c :: tl => if isCurrencyChar c then (⟨[c]⟩, tl) else ("", l)
    | [] => ("", [])
  let body := sr.2.dropWhile isJsSpace
  if !body.isEmpty && body.all isAmountChar then some (sr.1, ⟨body⟩) else none

/-! ## Record extraction (`extractDepositInfo`) -/

/-- The list-view record produced by `extractDepositInfo` (the constant
`type: 'Deposit'` field and the debug-only `element`/`xpath`/`outerHTML`
fields are not modelled). -/
structure DepositRecord where
  index : Nat
  amount : String
  currency : String
  depositStatus : String
  hasBeenReturned : Bool
  returnStatus : String
  deriving Repr, DecidableEq

/-- The standalone-currency-symbol loop (script-demo.js lines 390-405,
return-detector.js lines 132-147): for each symbol in order, find the first
paragraph whose trimmed text is exactly that symbol; if found, remember the
symbol as the currency and, when the immediately following paragraph's
trimmed text contains an amount character, take that trimmed text as the
amount and stop. -/
def currencyAmountLoop (c : Dom) (paras : List (List Nat)) :
    List String → String → String × String
  | [], cur => (cur, "")
  | sym :: rest, cur =>
    match List.findIdx? (fun p => jsTrim (textAt c p) == sym) paras with
    | none => currencyAmountLoop c paras rest cur
    | some i =>
      match paras.get? (i + 1) with
      | none => currencyAmountLoop c paras rest sym
      | some nxt =>
        let t := jsTrim (textAt c nxt)
        if t.data.any isAmountChar then (sym, t) else currencyAmountLoop c paras rest sym

/-- The combined-format fallback (script-demo.js lines 408-423,
return-detector.js lines 150-165): when the loop produced no amount, find
the first paragraph matching the anchored pattern and split it into the
optional symbol and the numeric remainder. -/
def combinedAmount (c : Dom) (paras : List (List Nat)) (cur amt : String) : String × String :=
  if amt = "" then
    match paras.find? (fun p => (splitAmount (jsTrim (textAt c p))).isSome) with
    | none => (cur, amt)
    | some p =>
      let t := jsTrim (textAt c p)
      match splitAmount t with
      | some sa => (sa.1, sa.2)
      | none => (cur, t)
  else (cur, amt)

/-- Status lookup shared by the deposit and return labels (script-demo.js
lines 426-437 and 441-452, return-detector.js lines 167-179): find the first
paragraph whose trimmed text is exactly `label`, take its parent element,
and read the trimmed text of the first `small` descendant of that parent;
any missing step yields the empty string. -/
def labelStatus (c : Dom) (paras : List (List Nat)) (label : String) : String :=
  match paras.find? (fun p => jsTrim (textAt c p) == label) with
  | none => ""
  | some p =>
    match parentPath p with
    | none => ""
    | some pp =>
      match nodeAt c pp with
      | none => ""
      | some parent =>
        match DOMUtils.querySelector (Selector.tag "small") parent with
        | none => ""
        | some sp => jsTrim (textAt parent sp)

namespace ScriptDemo

/-- `extractDepositInfo` from script-demo.js lines 377-464.  Note that
`hasBeenReturned` is presence-based here: it is true as soon as some
paragraph's trimmed text is exactly `"Return"` or the container's trimmed
text contains `"Return"`, regardless of the return status text. -/
def extractDepositInfo (container : Dom) (index : Nat) : DepositRecord :=
  let paragraphs := DOMUtils.querySelectorAll (Selector.tag "p") container
  let hasBeenReturned :=
    paragraphs.any (fun p => jsTrim (textAt container p) == "Return")
      || DOMUtils.elementContainsText container "Return"
  let la := currencyAmountLoop container paragraphs currencySymbols ""
  let ca := combinedAmount container paragraphs la.1 la.2
  let depositStatus := labelStatus container paragraphs "Deposit"
  let returnStatus :=
    if hasBeenReturned then labelStatus container paragraphs "Return" else ""
  { index := index, amount := ca.2, currency := ca.1, depositStatus := depositStatus,
    hasBeenReturned := hasBeenReturned, returnStatus := returnStatus }

end ScriptDemo

namespace ReturnDetector

/-- The fixed return detection of return-detector.js lines 181-206: find the
`<p>Return</p>` paragraph, read the first `small` of its parent, and derive
`hasBeenReturned` from the literal status text (`"Invoiced"` is the only
value yielding `true`; `"Pending invoice"` and every other value, and every
missing step, yield `false`). -/
def returnInfo (container : Dom) (paragraphs : List (List Nat)) : Bool × String :=
  match paragraphs.find? (fun p => jsTrim (textAt container p) == "Return") with
  | none => (false, "")
  | some p =>
    match parentPath p with
    | none => (false, "")
    | some pp =>
      match nodeAt container pp with
      | none => (false, "")
      | some parent =>
        match DOMUtils.querySelector (Selector.tag "small") parent with
        | none => (false, "")
        | some sp =>
          let rs := jsTrim (textAt parent sp)
          (rs == "Invoiced", rs)

/-- `extractDepositInfo` from return-detector.js lines 123-241 (the debug
`xpath`/`outerHTML` fields are not modelled). -/
def extractDepositInfo (container : Dom) (index : Nat) : DepositRecord :=
  let paragraphs := DOMUtils.querySelectorAll (Selector.tag "p") container
  let la := currencyAmountLoop container paragraphs currencySymbols ""
  let ca := combinedAmount container paragraphs la.1 la.2
  let depositStatus := labelStatus container paragraphs "Deposit"
  let ri := returnInfo container paragraphs
  { index := index, amount := ca.2, currency := ca.1, depositStatus := depositStatus,
    hasBeenReturned := ri.1, returnStatus := ri.2 }

end ReturnDetector

/-! ## Container discovery -/

/-- The composite ancestor predicate of `findDepositContainersGeneric`
(script-demo.js lines 349-358, return-detector.js lines 100-109): the
ancestor's text contains `"Deposit"` and either contains a currency symbol
or passes the numeric-pattern test `numTest` (the two source files differ
only in that test). -/
def genericContainerPred (numTest : List Char → Bool) (node : Dom) : Bool :=
  let hasDeposit := DOMUtils.elementContainsText node "Deposit"
  let hasAmount := currencySymbols.any (fun sym => DOMUtils.elementContainsText node sym)
  let hasNumbers := numTest node.textContent.data
  hasDeposit && (hasAmount || hasNumbers)

/-- `findDepositContainersGeneric` (script-demo.js lines 338-369,
return-detector.js lines 89-120), parameterized by the numeric-pattern
test in which the two source files differ: for every paragraph whose exact
trimmed text is `"Deposit"`, walk up at most 8 nodes (the node itself
included) looking for the first ancestor satisfying the composite
predicate, and collect the results deduplicated by identity. -/
def findDepositContainersGenericWith (numTest : List Char → Bool) (root : Dom) :
    List (List Nat) :=
  let depositTexts := DOMUtils.findElementsByText "p" "Deposit" root
  depositTexts.foldl
    (fun containers dt =>
      match DOMUtils.findAncestor root (genericContainerPred numTest) (some dt) 8 with
      | some cont => if containers.contains cont then containers else containers ++ [cont]
      | none => containers)
    []

/-- `findDepositContainers` (script-demo.js lines 314-332, return-detector.js
lines 66-86): query the fixed container selectors (abstracted here as
`containerSel`), keep only matches whose text contains `"Deposit"`, and fall
back to the generic approach when that yields zero containers. -/
def findDepositContainers (containerSel : Selector) (numTest : List Char → Bool)
    (root : Dom) : List (List Nat) :=
  let containers := DOMUtils.querySelectorAll containerSel root
  let containers := containers.filter (fun p =>
    match nodeAt root p with
    | some node => DOMUtils.elementContainsText node "Deposit"
    | none => false)
  if containers.isEmpty then findDepositContainersGenericWith numTest root else containers

namespace ScriptDemo

/-- script-demo.js's generic discovery, with its numeric test
`/\d+\.\d+|\d+,\d+/` (line 355). -/
def findDepositContainersGeneric (root : Dom) : List (List Nat) :=
  findDepositContainersGenericWith hasNumPattern root

end ScriptDemo

namespace ReturnDetector

/-- return-detector.js's generic discovery, with its numeric test
`/\\d+\\.\\d+|\\d+,\\d+/` (line 106), whose doubled backslashes make it
match only literal-backslash text. -/
def findDepositContainersGeneric (root : Dom) : List (List Nat) :=
  findDepositContainersGenericWith brokenNumPattern root

end ReturnDetector

/-! ## Export formatting (`DataExport`, script-demo.js lines 638-752) -/

/-- A JS value as it occurs in the export rows: `u` is `undefined`/`null`,
the others are booleans, strings and numbers.  (`toCSV` also has a branch
for nested objects; `formatForExport` flattens every row, so no object
value ever reaches a cell and that branch is not modelled.) -/
inductive JsValue where
  | u : JsValue
  | b : Bool → JsValue
  | s : String → JsValue
  | n : Nat → JsValue
  deriving Repr, DecidableEq

/-- An export row as the JS object `formatForExport` builds: keys paired
with values, in insertion order. -/
abbrev ExportRow := List (String × JsValue)

/-- JS `value.replace(/"/g, '""')`: double every double-quote character. -/
def escQuotes : List Char → List Char
  | [] => []
  | c :: rest => if c = '"' then '"' :: '"' :: escQuotes rest else c :: escQuotes rest

/-- One CSV cell (script-demo.js lines 655-671): empty for `null`/`undefined`,
literal `true`/`false` for booleans, and otherwise the value wrapped in
double quotes with internal quotes doubled. -/
def csvCell : JsValue → String
  | .u => ""
  | .b true => "true"
  | .b false => "false"
  | .s v => ⟨'"' :: (escQuotes v.data ++ ['"'])⟩
  | .n v => ⟨'"' :: ((toString v).data ++ ['"'])⟩

/-- JS `item[header]` on an export row: the value at the first matching key,
`undefined` when the key is absent. -/
def lookupField (row : ExportRow) (k : String) : JsValue :=
  match row.find? (fun kv => kv.1 == k) with
  | some kv => kv.2
  | none => .u

/-- The header list `Object.keys(data[0])` used by `toCSV` (line 648):
the first row's keys in insertion order, empty for an empty batch. -/
def csvHeaders (rows : List ExportRow) : List String :=
  match rows with
  | [] => []
  | first :: _ => first.map Prod.fst

/-- `toCSV` (script-demo.js lines 644-678): the header row, then one line
per row with the cells looked up by the first row's keys. -/
def toCSV (rows : List ExportRow) : String :=
  match rows with
  | [] => ""
  | _ :: _ =>
    let headers := csvHeaders rows
    rows.foldl
      (fun acc row =>
        acc ++ String.intercalate "," (headers.map (fun h => csvCell (lookupField row h))) ++ "\n")
      (String.intercalate "," headers ++ "\n")

/-- A standard delimited-text reader's quoted field, on the text after the
opening quote: `""` is an escaped quote, a lone `"` ends the field. -/
def parseQuotedBody : List Char → Option (List Char × List Char)
  | [] => none
  | c :: rest =>
    if c = '"' then
      match rest with
      | '"' :: rest2 => (parseQuotedBody rest2).map (fun fr => ('"' :: fr.1, fr.2))
      | _ => some ([], rest)
    else (parseQuotedBody rest).map (fun fr => (c :: fr.1, fr.2))

/-- A standard delimited-text reader's quoted field: an opening quote, the
body, a closing quote; returns the field's content and the remaining text. -/
def parseQuoted (l : List Char) : Option (List Char × List Char) :=
  match l with
  | '"' :: rest => parseQuotedBody rest
  | _ => none

/-! ## The enrichment pipeline (`ModalHandler` / `App`) -/

/-- The list-view fields carried along into `getDepositDetails` (the
`listInfo` object of script-demo.js lines 594-600). -/
structure ListInfo where
  amount : String
  currency : String
  depositStatus : String
  hasBeenReturned : Bool
  returnStatus : String
  deriving Repr, DecidableEq

/-- The modal form fields read by `extractModalDetails` (script-demo.js
lines 491-532); each defaults to empty/false when the control is absent. -/
structure ModalInfo where
  billPayer : String
  amount : String
  depositDate : String
  note : String
  alreadyPaid : Bool
  deriving Repr, DecidableEq

/-- The per-record result of `getDepositDetails`: on success `modalInfo` is
present and `error` absent, on a caught exception `error` carries the
message and `modalInfo` is absent (script-demo.js lines 592-624). -/
structure DetailRecord where
  index : Nat
  listInfo : Option ListInfo
  modalInfo : Option ModalInfo
  error : Option String
  timestamp : String
  extractedBy : Option String
  deriving Repr, DecidableEq

/-- `CONFIG.USER`. -/
def configUser : String := "wolketich"

/-- `CONFIG.TIMESTAMPS.current`. -/
def configTimestamp : String := "2025-04-28 14:25:07"

/-- The `listInfo` object built from a list-view record. -/
def listInfoOf (d : DepositRecord) : ListInfo :=
  { amount := d.amount, currency := d.currency, depositStatus := d.depositStatus,
    hasBeenReturned := d.hasBeenReturned, returnStatus := d.returnStatus }

/-- JS `s || ''` on a possibly-absent string field. -/
def jsStrOr (o : Option String) : String :=
  match o with
  | none => ""
  | some s => if s = "" then "" else s

/-- JS `str.replace(/,/g, '')`: remove every comma. -/
def stripCommas (s : String) : String :=
  ⟨s.data.filter (fun c => !(c == ','))⟩

/-- One row of `formatForExport` (script-demo.js lines 685-708): the flat,
fixed-shape export object built from a detail record, with `|| ''` /
`|| false` defaults for every absent field and the comma-stripped amount. -/
def formatRow (d : DetailRecord) : ExportRow :=
  let amountStr :=
    match d.listInfo with
    | some li => if li.amount = "" then "" else stripCommas li.amount
    | none => ""
  [("index", .n d.index),
   ("amount", .s amountStr),
   ("currency", .s (jsStrOr (d.listInfo.map (·.currency)))),
   ("depositStatus", .s (jsStrOr (d.listInfo.map (·.depositStatus)))),
   ("hasBeenReturned", .b ((d.listInfo.map (·.hasBeenReturned)).getD false)),
   ("returnStatus", .s (jsStrOr (d.listInfo.map (·.returnStatus)))),
   ("billPayer", .s (jsStrOr (d.modalInfo.map (·.billPayer)))),
   ("formAmount", .s (jsStrOr (d.modalInfo.map (·.amount)))),
   ("depositDate", .s (jsStrOr (d.modalInfo.map (·.depositDate)))),
   ("note", .s (jsStrOr (d.modalInfo.map (·.note)))),
   ("alreadyPaid", .b ((d.modalInfo.map (·.alreadyPaid)).getD false)),
   ("extractedBy", .s (match d.extractedBy with
      | some s => if s = "" then configUser else s
      | none => configUser)),
   ("extractedAt", .s (if d.timestamp = "" then configTimestamp else d.timestamp)),
   ("errorMessage", .s (jsStrOr d.error))]

/-- The fixed field set of every export row, in insertion order. -/
def exportFieldNames : List String :=
  ["index", "amount", "currency", "depositStatus", "hasBeenReturned", "returnStatus",
   "billPayer", "formAmount", "depositDate", "note", "alreadyPaid",
   "extractedBy", "extractedAt", "errorMessage"]

/-- `formatForExport` (script-demo.js lines 685-708). -/
def formatForExport (deposits : List DetailRecord) : List ExportRow :=
  deposits.map formatRow

/-- `getDepositDetails` (script-demo.js lines 571-626), with the effectful
modal interaction abstracted into its outcome: on success the modal fields
are combined with the list info; any exception is caught and the partial
record is returned with the error message instead. -/
def getDepositDetails (d : DepositRecord) (outcome : Except String ModalInfo) :
    DetailRecord :=
  match outcome with
  | .ok mi =>
    { index := d.index, listInfo := some (listInfoOf d), modalInfo := some mi,
      error := none, timestamp := configTimestamp, extractedBy := some configUser }
  | .error msg =>
    { index := d.index, listInfo := some (listInfoOf d), modalInfo := none,
      error := some msg, timestamp := configTimestamp, extractedBy := some configUser }

/-- The sequential batch loop of `exportAllDepositData` (script-demo.js
lines 929-961): deposit `i` is enriched with outcome `outcomes i` and a
detail record is pushed either way, so a failing record never aborts the
batch. -/
def processDeposits (outcomes : Nat → Except String ModalInfo) :
    Nat → List DepositRecord → List DetailRecord
  | _, [] => []
  | i, d :: ds => getDepositDetails d (outcomes i) :: processDeposits outcomes (i + 1) ds

/-- `exportAllDepositData` (script-demo.js lines 913-1010), restricted to
the data path the claims are about: enrich every discovered deposit in
order and format the detail records for export. -/
def exportAllDepositData (deposits : List DepositRecord)
    (outcomes : Nat → Except String ModalInfo) : List ExportRow :=
  formatForExport (processDeposits outcomes 0 deposits)

/-! ## Concrete page fragments used as inputs -/

/-- A container with a standalone `€` paragraph followed by the amount. -/
def euroDemo : Dom :=
  .elem "div" [.elem "p" [.text "€"], .elem "p" [.text "1,250.00"]]

/-- A container whose first `€` paragraph is not followed by an amount but
whose second one is. -/
def c7Counter : Dom :=
  .elem "div" [.elem "p" [.text "€"], .elem "p" [.text "abc"],
               .elem "p" [.text "€"], .elem "p" [.text "50"]]

/-- A container with the single combined-format paragraph `$300`. -/
def dollarDemo : Dom := .elem "div" [.elem "p" [.text "$300"]]

/-- A container with the single symbol-less paragraph `450`. -/
def plainDemo : Dom := .elem "div" [.elem "p" [.text "450"]]

/-- A container with a `Return` paragraph whose sibling `small` reads
`Pending invoice`. -/
def c1Demo : Dom :=
  .elem "div" [.elem "p" [.text "Return"], .elem "small" [.text "Pending invoice"]]

/-- A page with one exact-text `Deposit` paragraph (path `[0,0,0,0]`) whose
3rd ancestor (path `[0]`) also holds the text `1,250.00`, and no currency
symbol anywhere. -/
def c2Root : Dom :=
  .elem "html"
    [.elem "div" [.elem "div" [.elem "div" [.elem "p" [.text "Deposit"]]],
                  .text "1,250.00"]]

/-! ## Claims -/

/-- In return-detector.js the returned flag computed by `returnInfo` is in
every branch exactly the comparison of the status text with `"Invoiced"`. -/
theorem ReturnDetector.returnInfo_fst (c : Dom) (paras : List (List Nat)) :
    (ReturnDetector.returnInfo c paras).1
      = ((ReturnDetector.returnInfo c paras).2 == "Invoiced") := by
  unfold ReturnDetector.returnInfo
  repeat' split
  all_goals rfl

/-- C1: in return-detector.js's `extractDepositInfo`, `hasBeenReturned` is
true exactly when `returnStatus` is the literal `"Invoiced"` (so `"Pending
invoice"`, any other status and an absent label all yield `false`) — but
script-demo.js's `extractDepositInfo` derives `hasBeenReturned` from the
mere presence of a `"Return"` label: on a container whose return status
reads `"Pending invoice"` it yields `hasBeenReturned = true`, violating the
claimed invariant. -/
theorem returnDetection_status_contract :
    (∀ (c : Dom) (i : Nat),
        (ReturnDetector.extractDepositInfo c i).hasBeenReturned
          = ((ReturnDetector.extractDepositInfo c i).returnStatus == "Invoiced"))
      ∧ (ScriptDemo.extractDepositInfo c1Demo 1).hasBeenReturned = true
      ∧ (ScriptDemo.extractDepositInfo c1Demo 1).returnStatus = "Pending invoice"
      ∧ (ReturnDetector.extractDepositInfo c1Demo 1).hasBeenReturned = false := by
  refine ⟨fun c i => ?_, by decide, by decide, by decide⟩
  exact ReturnDetector.returnInfo_fst c (DOMUtils.querySelectorAll (Selector.tag "p") c)

/-- C2: on a page where the fixed selectors match nothing, with one exact
`"Deposit"` paragraph whose 3rd ancestor holds both the label and the
numeric pattern (and no nearer ancestor qualifies), script-demo.js's
generic fallback returns exactly that ancestor as the sole candidate —
while return-detector.js's copy of the same function returns nothing,
because the doubled backslashes in its numeric regex make the pattern
match only literal-backslash text. -/
theorem genericDiscovery_third_ancestor :
    DOMUtils.findElementsByText "p" "Deposit" c2Root = [[0, 0, 0, 0]]
      ∧ [0, 0, 0, 0].dropLast.dropLast.dropLast = [0]
      ∧ hasNumPattern (textAt c2Root [0]).data = true
      ∧ (nodeAt c2Root [0]).map (fun nd => DOMUtils.elementContainsText nd "Deposit")
          = some true
      ∧ ScriptDemo.findDepositContainersGeneric c2Root = [[0]]
      ∧ ReturnDetector.findDepositContainersGeneric c2Root = []
      ∧ brokenNumPattern (textAt c2Root [0]).data = false := by
  decide

/-- The error text an enrichment outcome contributes to its export row
(`deposit.error || ''` on the record `getDepositDetails` builds). -/
def rowErrOf (e : Except String ModalInfo) : String :=
  match e with
  | .error m => if m = "" then "" else m
  | .ok _ => ""

/-- The batch loop emits one detail record per deposit. -/
theorem processDeposits_length (outcomes : Nat → Except String ModalInfo)
    (ds : List DepositRecord) : ∀ n, (processDeposits outcomes n ds).length = ds.length := by
  induction ds with
  | nil => intro n; rfl
  | cons d t ih => intro n; simp [processDeposits, ih]

/-- The `errorMessage` column of the formatted batch, row by row: row `j`
carries exactly the error text of outcome `n + j`. -/
theorem processDeposits_errorMessages (outcomes : Nat → Except String ModalInfo)
    (ds : List DepositRecord) : ∀ n,
    (formatForExport (processDeposits outcomes n ds)).map
        (fun r => lookupField r "errorMessage")
      = (List.range' n ds.length).map (fun j => JsValue.s (rowErrOf (outcomes j))) := by
  induction ds with
  | nil => intro n; rfl
  | cons d t ih =>
    intro n
    have h1 : lookupField (formatRow (getDepositDetails d (outcomes n))) "errorMessage"
        = JsValue.s (rowErrOf (outcomes n)) := by
      cases outcomes n <;> rfl
    calc (formatForExport (processDeposits outcomes n (d :: t))).map
            (fun r => lookupField r "errorMessage")
        = lookupField (formatRow (getDepositDetails d (outcomes n))) "errorMessage"
            :: (formatForExport (processDeposits outcomes (n + 1) t)).map
                (fun r => lookupField r "errorMessage") := rfl
      _ = JsValue.s (rowErrOf (outcomes n))
            :: (List.range' (n + 1) t.length).map
                (fun j => JsValue.s (rowErrOf (outcomes j))) := by rw [h1, ih (n + 1)]
      _ = (List.range' n (d :: t).length).map
            (fun j => JsValue.s (rowErrOf (outcomes j))) := by
          rw [List.length_cons, List.range'_succ, List.map_cons]

/-- C3: when enrichment of exactly one deposit (index `k`) throws with a
non-empty message and every other enrichment succeeds, the export still
contains one row per discovered deposit, the failing deposit's row carries
the (non-empty) error message, and every other row's `errorMessage` is
empty — the batch is never aborted. -/
theorem exportAllDepositData_partial_failure
    (deposits : List DepositRecord) (outcomes : Nat → Except String ModalInfo)
    (k : Nat) (msg : String)
    (hk : outcomes k = Except.error msg) (hmsg : msg ≠ "")
    (hothers : ∀ j, j ≠ k → ∃ mi, outcomes j = Except.ok mi) :
    (exportAllDepositData deposits outcomes).length = deposits.length
      ∧ (exportAllDepositData deposits outcomes).map (fun r => lookupField r "errorMessage")
          = (List.range deposits.length).map
              (fun j => JsValue.s (if j = k then msg else "")) := by
  constructor
  · show (formatForExport (processDeposits outcomes 0 deposits)).length = _
    rw [formatForExport, List.length_map, processDeposits_length]
  · show (formatForExport (processDeposits outcomes 0 deposits)).map _ = _
    rw [processDeposits_errorMessages, List.range_eq_range']
    apply List.map_congr_left
    intro j _
    by_cases h : j = k
    · subst h
      rw [hk]
      simp [rowErrOf, hmsg]
    · obtain ⟨mi, hmi⟩ := hothers j h
      rw [hmi]
      simp [rowErrOf, h]

/-- A concrete discovered deposit for the pipeline witnesses. -/
def demoDeposit (i : Nat) : DepositRecord :=
  { index := i, amount := "1,250.00", currency := "€", depositStatus := "Paid",
    hasBeenReturned := false, returnStatus := "" }

/-- A concrete three-record batch. -/
def demoDeposits : List DepositRecord := [demoDeposit 1, demoDeposit 2, demoDeposit 3]

/-- A concrete successful modal read. -/
def demoModal : ModalInfo :=
  { billPayer := "Jane Doe", amount := "1250", depositDate := "01/02/2025",
    note := "", alreadyPaid := false }

/-- Outcomes in which only the second record's detail read throws. -/
def demoOutcomes : Nat → Except String ModalInfo :=
  fun j => if j = 1 then Except.error "Timeout waiting for elements" else Except.ok demoModal

/-- Witness for C3: a three-deposit batch whose second enrichment throws
still exports three rows, with the error message only on row 2. -/
theorem exportAllDepositData_partial_failure_witness :
    (exportAllDepositData demoDeposits demoOutcomes).length = 3
      ∧ (exportAllDepositData demoDeposits demoOutcomes).map
            (fun r => lookupField r "errorMessage")
          = [JsValue.s "", JsValue.s "Timeout waiting for elements", JsValue.s ""] := by
  have h := exportAllDepositData_partial_failure demoDeposits demoOutcomes 1
    "Timeout waiting for elements" rfl (by decide)
    (fun j hj => ⟨demoModal, by simp [demoOutcomes, hj]⟩)
  exact ⟨h.1, by rw [h.2]; rfl⟩

/-- When no paragraph's trimmed text equals any of the symbols still to be
tried, the standalone-currency loop leaves the running currency untouched
and produces no amount. -/
theorem currencyAmountLoop_all_none (c : Dom) (paras : List (List Nat)) :
    ∀ (syms : List String) (cur : String),
      (∀ sym ∈ syms, List.findIdx? (fun p => jsTrim (textAt c p) == sym) paras = none) →
      currencyAmountLoop c paras syms cur = (cur, "") := by
  intro syms
  induction syms with
  | nil => intro cur _; rfl
  | cons s rest ih =>
    intro cur h
    have hs := h s (List.mem_cons_self s rest)
    unfold currencyAmountLoop
    rw [hs]
    exact ih cur fun sym hsym => h sym (List.mem_cons_of_mem s hsym)

/-- C4: extraction is a total function of the container (in this embedding
it cannot raise), and every absent sub-element yields the empty-string or
`false` default for its field: no currency paragraph together with no
combined-format paragraph gives empty amount and currency; no exact
`"Deposit"` paragraph gives an empty deposit status; no `"Return"` label
anywhere gives `hasBeenReturned = false` and an empty return status; and a
`"Deposit"` paragraph whose parent holds no nested `small` element also
gives an empty deposit status. -/
theorem extractDepositInfo_total_defaults (c : Dom) (i : Nat) :
    ((∀ sym ∈ currencySymbols,
        List.findIdx? (fun p => jsTrim (textAt c p) == sym)
          (DOMUtils.querySelectorAll (Selector.tag "p") c) = none) →
      (DOMUtils.querySelectorAll (Selector.tag "p") c).find?
          (fun p => (splitAmount (jsTrim (textAt c p))).isSome) = none →
      (ScriptDemo.extractDepositInfo c i).amount = ""
        ∧ (ScriptDemo.extractDepositInfo c i).currency = "")
    ∧ ((DOMUtils.querySelectorAll (Selector.tag "p") c).find?
          (fun p => jsTrim (textAt c p) == "Deposit") = none →
        (ScriptDemo.extractDepositInfo c i).depositStatus = "")
    ∧ ((DOMUtils.querySelectorAll (Selector.tag "p") c).find?
          (fun p => jsTrim (textAt c p) == "Return") = none →
        DOMUtils.elementContainsText c "Return" = false →
        (ScriptDemo.extractDepositInfo c i).hasBeenReturned = false
          ∧ (ScriptDemo.extractDepositInfo c i).returnStatus = "")
    ∧ ((∀ q pp parent,
          (DOMUtils.querySelectorAll (Selector.tag "p") c).find?
              (fun p => jsTrim (textAt c p) == "Deposit") = some q →
          parentPath q = some pp → nodeAt c pp = some parent →
          DOMUtils.querySelector (Selector.tag "small") parent = none) →
        (ScriptDemo.extractDepositInfo c i).depositStatus = "") := by
  refine ⟨?_, ?_, ?_, ?_⟩
  · intro h1 h2
    have hl := currencyAmountLoop_all_none c
      (DOMUtils.querySelectorAll (Selector.tag "p") c) currencySymbols "" h1
    have hca : combinedAmount c (DOMUtils.querySelectorAll (Selector.tag "p") c)
        (currencyAmountLoop c (DOMUtils.querySelectorAll (Selector.tag "p") c)
          currencySymbols "").1
        (currencyAmountLoop c (DOMUtils.querySelectorAll (Selector.tag "p") c)
          currencySymbols "").2
        = ("", "") := by
      rw [hl]
      unfold combinedAmount
      rw [if_pos rfl, h2]
    exact ⟨congrArg Prod.snd hca, congrArg Prod.fst hca⟩
  · intro hfind
    show labelStatus c (DOMUtils.querySelectorAll (Selector.tag "p") c) "Deposit" = ""
    unfold labelStatus
    rw [hfind]
  · intro hfind hcontains
    have hany : (DOMUtils.querySelectorAll (Selector.tag "p") c).any
        (fun p => jsTrim (textAt c p) == "Return") = false := by
      rw [List.any_eq_false]
      intro p hp
      simpa using List.find?_eq_none.mp hfind p hp
    have hor : ((DOMUtils.querySelectorAll (Selector.tag "p") c).any
        (fun p => jsTrim (textAt c p) == "Return")
        || DOMUtils.elementContainsText c "Return") = false := by
      rw [hany, hcontains]
      rfl
    refine ⟨hor, ?_⟩
    show (if ((DOMUtils.querySelectorAll (Selector.tag "p") c).any
        (fun p => jsTrim (textAt c p) == "Return")
        || DOMUtils.elementContainsText c "Return") = true
      then labelStatus c (DOMUtils.querySelectorAll (Selector.tag "p") c) "Return"
      else "") = ""
    rw [hor]
    rfl
  · intro hsmall
    show labelStatus c (DOMUtils.querySelectorAll (Selector.tag "p") c) "Deposit" = ""
    unfold labelStatus
    split
    · rfl
    · rename_i q hq
      split
      · rfl
      · rename_i pp hpp
        split
        · rfl
        · rename_i parent hparent
          split
          · rfl
          · rename_i sp hsp
            rw [hsmall q pp parent hq hpp hparent] at hsp
            cases hsp

/-- A container with no paragraphs at all. -/
def c4Demo : Dom := .elem "div" [.text "hello"]

/-- Witness for C4: on a container with no sub-elements every extracted
field is the empty-string or `false` default. -/
theorem extractDepositInfo_total_defaults_witness :
    (ScriptDemo.extractDepositInfo c4Demo 1).amount = ""
      ∧ (ScriptDemo.extractDepositInfo c4Demo 1).currency = ""
      ∧ (ScriptDemo.extractDepositInfo c4Demo 1).depositStatus = ""
      ∧ (ScriptDemo.extractDepositInfo c4Demo 1).hasBeenReturned = false
      ∧ (ScriptDemo.extractDepositInfo c4Demo 1).returnStatus = "" := by
  have h := extractDepositInfo_total_defaults c4Demo 1
  have h1 := h.1 (by decide) (by decide)
  have h2 := h.2.1 (by decide)
  have h3 := h.2.2.1 (by decide) (by decide)
  exact ⟨h1.1, h1.2, h2, h3.1, h3.2⟩

/-- Reading back an escaped field body followed by the closing quote
recovers the original characters with nothing left over. -/
theorem parseQuotedBody_escQuotes (l : List Char) :
    parseQuotedBody (escQuotes l ++ ['"']) = some (l, []) := by
  induction l with
  | nil => rfl
  | cons c t ih =>
    by_cases h : c = '"'
    · subst h
      have he : escQuotes ('"' :: t) ++ ['"'] = '"' :: '"' :: (escQuotes t ++ ['"']) := by
        simp [escQuotes]
      rw [he]
      show (parseQuotedBody (escQuotes t ++ ['"'])).map (fun fr => ('"' :: fr.1, fr.2))
          = some ('"' :: t, [])
      rw [ih]
      rfl
    · have he : escQuotes (c :: t) ++ ['"'] = c :: (escQuotes t ++ ['"']) := by
        simp [escQuotes, h]
      rw [he]
      conv_lhs => unfold parseQuotedBody
      rw [if_neg h, ih]
      rfl

/-- C5: the CSV writer emits a string value wrapped in double quotes with
each internal quote doubled, and a standard delimited-text reader parsing
that field recovers the original string exactly — in particular for values
that themselves contain double-quote characters. -/
theorem csv_quote_roundtrip (s : String) (h : '"' ∈ s.data) :
    parseQuoted (csvCell (JsValue.s s)).data = some (s.data, []) := by
  show parseQuoted ('"' :: (escQuotes s.data ++ ['"'])) = some (s.data, [])
  show parseQuotedBody (escQuotes s.data ++ ['"']) = some (s.data, [])
  exact parseQuotedBody_escQuotes s.data

/-- Witness for C5: round-trip of the value `He said "hi"`. -/
theorem csv_quote_roundtrip_witness :
    '"' ∈ ("He said \"hi\"" : String).data
      ∧ parseQuoted (csvCell (JsValue.s "He said \"hi\"")).data
          = some (("He said \"hi\"" : String).data, []) :=
  ⟨by decide, csv_quote_roundtrip "He said \"hi\"" (by decide)⟩

/-- C6: the exported `amount` column is always the list-view amount with
every comma removed (`"1,250.00"` exports as `"1250.00"`), while the
extracted record itself keeps the raw thousands-separated string. -/
theorem formatForExport_strips_commas :
    (∀ d : DetailRecord,
        lookupField (formatRow d) "amount"
          = JsValue.s (stripCommas ((d.listInfo.map (fun li => li.amount)).getD "")))
      ∧ stripCommas "1,250.00" = "1250.00"
      ∧ (ScriptDemo.extractDepositInfo euroDemo 1).amount = "1,250.00" := by
  refine ⟨fun d => ?_, by decide, by decide⟩
  show JsValue.s (match d.listInfo with
      | some li => if li.amount = "" then "" else stripCommas li.amount
      | none => "")
    = JsValue.s (stripCommas ((d.listInfo.map (fun li => li.amount)).getD ""))
  cases hli : d.listInfo with
  | none => rfl
  | some li =>
    by_cases h : li.amount = ""
    · simp [h]
      rfl
    · simp [h]

/-- One iteration's worth of the standalone-currency loop for symbol `sym`:
`some t` when the first paragraph whose trimmed text equals `sym` exists
and is immediately followed by a paragraph whose trimmed text `t` contains
an amount character; `none` otherwise. -/
def standaloneHit (c : Dom) (paras : List (List Nat)) (sym : String) : Option String :=
  match List.findIdx? (fun p => jsTrim (textAt c p) == sym) paras with
  | none => none
  | some i =>
    match paras.get? (i + 1) with
    | none => none
    | some nxt =>
      let t := jsTrim (textAt c nxt)
      if t.data.any isAmountChar then some t else none

/-- A successful hit carries a nonempty amount text. -/
theorem standaloneHit_ne_empty (c : Dom) (paras : List (List Nat)) (sym t : String)
    (h : standaloneHit c paras sym = some t) : t ≠ "" := by
  unfold standaloneHit at h
  split at h
  · cases h
  · split at h
    · cases h
    · rename_i nxt heq
      have h2 : (if (jsTrim (textAt c nxt)).data.any isAmountChar = true
          then some (jsTrim (textAt c nxt)) else none) = some t := h
      by_cases hany : (jsTrim (textAt c nxt)).data.any isAmountChar = true
      · rw [if_pos hany] at h2
        intro ht
        rw [Option.some.inj h2, ht] at hany
        exact absurd hany (by decide)
      · rw [if_neg hany] at h2
        cases h2

/-- A hit on the head symbol ends the loop with that symbol and amount. -/
theorem currencyAmountLoop_cons_hit (c : Dom) (paras : List (List Nat))
    (sym : String) (rest : List String) (cur t : String)
    (h : standaloneHit c paras sym = some t) :
    currencyAmountLoop c paras (sym :: rest) cur = (sym, t) := by
  unfold standaloneHit at h
  conv_lhs => unfold currencyAmountLoop
  split at h
  · cases h
  · split at h
    · cases h
    · rename_i nxt heq
      have h2 : (if (jsTrim (textAt c nxt)).data.any isAmountChar = true
          then some (jsTrim (textAt c nxt)) else none) = some t := h
      show (if (jsTrim (textAt c nxt)).data.any isAmountChar = true
          then (sym, jsTrim (textAt c nxt))
          else currencyAmountLoop c paras rest sym) = (sym, t)
      by_cases hany : (jsTrim (textAt c nxt)).data.any isAmountChar = true
      · rw [if_pos hany] at h2
        rw [if_pos hany, Option.some.inj h2]
      · rw [if_neg hany] at h2
        cases h2

/-- A miss on the head symbol makes the loop continue with the tail; the
running currency becomes the symbol when its paragraph existed (a later
hit's result does not depend on it either way). -/
theorem currencyAmountLoop_cons_miss (c : Dom) (paras : List (List Nat))
    (sym : String) (rest : List String) (cur : String)
    (h : standaloneHit c paras sym = none) :
    currencyAmountLoop c paras (sym :: rest) cur
      = currencyAmountLoop c paras rest
          (match List.findIdx? (fun p => jsTrim (textAt c p) == sym) paras with
           | none => cur
           | some _ => sym) := by
  unfold standaloneHit at h
  conv_lhs => unfold currencyAmountLoop
  split at h
  · rfl
  · split at h
    · rfl
    · rename_i nxt heq
      have h2 : (if (jsTrim (textAt c nxt)).data.any isAmountChar = true
          then some (jsTrim (textAt c nxt)) else none) = none := h
      show (if (jsTrim (textAt c nxt)).data.any isAmountChar = true
          then (sym, jsTrim (textAt c nxt))
          else currencyAmountLoop c paras rest sym)
        = currencyAmountLoop c paras rest sym
      by_cases hany : (jsTrim (textAt c nxt)).data.any isAmountChar = true
      · rw [if_pos hany] at h2
        cases h2
      · rw [if_neg hany]

/-- C7 (amended): for the first symbol `sym`, in the fixed order €, $, £,
whose first exact-text paragraph is immediately followed by a paragraph
whose trimmed text contains a character of `[0-9,.]`, extraction returns
`sym` as the currency and that following paragraph's trimmed text,
unchanged, as the amount. -/
theorem currency_adjacency_first_match (c : Dom) (i : Nat) (sym t : String)
    (hmem : sym ∈ currencySymbols)
    (hsym : standaloneHit c (DOMUtils.querySelectorAll (Selector.tag "p") c) sym = some t)
    (hprev : ∀ s ∈ currencySymbols.takeWhile (fun x => x != sym),
        standaloneHit c (DOMUtils.querySelectorAll (Selector.tag "p") c) s = none) :
    (ScriptDemo.extractDepositInfo c i).currency = sym
      ∧ (ScriptDemo.extractDepositInfo c i).amount = t := by
  have ht := standaloneHit_ne_empty c _ sym t hsym
  have hloop : currencyAmountLoop c (DOMUtils.querySelectorAll (Selector.tag "p") c)
      currencySymbols "" = (sym, t) := by
    have hcases : sym = "€" ∨ sym = "$" ∨ sym = "£" := by
      simpa [currencySymbols] using hmem
    rcases hcases with h | h | h
    · subst h
      exact currencyAmountLoop_cons_hit c _ "€" ["$", "£"] "" t hsym
    · subst h
      have hmiss := hprev "€" (by decide)
      rw [show currencySymbols = "€" :: ["$", "£"] from rfl,
        currencyAmountLoop_cons_miss c _ "€" ["$", "£"] "" hmiss]
      exact currencyAmountLoop_cons_hit c _ "$" ["£"] _ t hsym
    · subst h
      have hmiss1 := hprev "€" (by decide)
      have hmiss2 := hprev "$" (by decide)
      rw [show currencySymbols = "€" :: ["$", "£"] from rfl,
        currencyAmountLoop_cons_miss c _ "€" ["$", "£"] "" hmiss1,
        currencyAmountLoop_cons_miss c _ "$" ["£"] _ hmiss2]
      exact currencyAmountLoop_cons_hit c _ "£" [] _ t hsym
  have hca : combinedAmount c (DOMUtils.querySelectorAll (Selector.tag "p") c)
      (currencyAmountLoop c (DOMUtils.querySelectorAll (Selector.tag "p") c)
        currencySymbols "").1
      (currencyAmountLoop c (DOMUtils.querySelectorAll (Selector.tag "p") c)
        currencySymbols "").2
      = (sym, t) := by
    rw [hloop]
    unfold combinedAmount
    rw [if_neg ht]
  exact ⟨congrArg Prod.fst hca, congrArg Prod.snd hca⟩

/-- Counterexample to C7 as stated: in `c7Counter` the paragraph at path
`[2]` has trimmed text exactly `"€"` and the immediately following
paragraph's trimmed text `"50"` matches `[0-9,.]+`, yet extraction returns
`currency = ""` (not `"€"`) and `amount = "50"`, because the code only ever
inspects the first paragraph per symbol (`paragraphs.find`) and overwrites
the currency in the combined-format fallback. -/
theorem currency_adjacency_counterexample :
    jsTrim (textAt c7Counter [2]) = "€"
      ∧ "€" ∈ currencySymbols
      ∧ (DOMUtils.querySelectorAll (Selector.tag "p") c7Counter).get? 2 = some [2]
      ∧ (DOMUtils.querySelectorAll (Selector.tag "p") c7Counter).get? 3 = some [3]
      ∧ jsTrim (textAt c7Counter [3]) = "50"
      ∧ (jsTrim (textAt c7Counter [3])).data.any isAmountChar = true
      ∧ (ScriptDemo.extractDepositInfo c7Counter 1).currency = ""
      ∧ (ScriptDemo.extractDepositInfo c7Counter 1).amount = "50"
      ∧ ¬(ScriptDemo.extractDepositInfo c7Counter 1).currency = "€" := by
  decide

/-- Witness for C7 (amended): the `€` paragraph of `euroDemo` is first in
symbol order and adjacent to `"1,250.00"`. -/
theorem currency_adjacency_first_match_witness :
    (ScriptDemo.extractDepositInfo euroDemo 1).currency = "€"
      ∧ (ScriptDemo.extractDepositInfo euroDemo 1).amount = "1,250.00" :=
  currency_adjacency_first_match euroDemo 1 "€" "1,250.00" (by decide) (by decide)
    (by decide)

/-- C8: when the standalone-symbol loop supplies no amount, extraction takes
the first paragraph matching `^[€$£]?\s*[0-9,.]+$` and splits it by the
capture groups into the optional symbol and the numeric remainder, which
become the record's currency and amount. -/
theorem combined_amount_split (c : Dom) (i : Nat) (p0 : List Nat) (sy am : String)
    (hloop : (currencyAmountLoop c (DOMUtils.querySelectorAll (Selector.tag "p") c)
        currencySymbols "").2 = "")
    (hfind : (DOMUtils.querySelectorAll (Selector.tag "p") c).find?
        (fun p => (splitAmount (jsTrim (textAt c p))).isSome) = some p0)
    (hsplit : splitAmount (jsTrim (textAt c p0)) = some (sy, am)) :
    (ScriptDemo.extractDepositInfo c i).currency = sy
      ∧ (ScriptDemo.extractDepositInfo c i).amount = am := by
  have hca : combinedAmount c (DOMUtils.querySelectorAll (Selector.tag "p") c)
      (currencyAmountLoop c (DOMUtils.querySelectorAll (Selector.tag "p") c)
        currencySymbols "").1
      (currencyAmountLoop c (DOMUtils.querySelectorAll (Selector.tag "p") c)
        currencySymbols "").2
      = (sy, am) := by
    unfold combinedAmount
    rw [if_pos hloop, hfind]
    show (match splitAmount (jsTrim (textAt c p0)) with
          | some sa => (sa.1, sa.2)
          | none => ((currencyAmountLoop c (DOMUtils.querySelectorAll (Selector.tag "p") c)
              currencySymbols "").1, jsTrim (textAt c p0))) = (sy, am)
    rw [hsplit]
  exact ⟨congrArg Prod.fst hca, congrArg Prod.snd hca⟩

/-- Witness for C8: `"$300"` splits into `$` and `300`, and the symbol-less
`"450"` yields an empty currency and amount `450`. -/
theorem combined_amount_split_witness :
    ((ScriptDemo.extractDepositInfo dollarDemo 1).currency = "$"
        ∧ (ScriptDemo.extractDepositInfo dollarDemo 1).amount = "300")
      ∧ ((ScriptDemo.extractDepositInfo plainDemo 1).currency = ""
        ∧ (ScriptDemo.extractDepositInfo plainDemo 1).amount = "450") :=
  ⟨combined_amount_split dollarDemo 1 [0] "$" "300" (by decide) (by decide) (by decide),
   combined_amount_split plainDemo 1 [0] "" "450" (by decide) (by decide) (by decide)⟩

/-- C9: every row `formatForExport` produces carries the same fixed field
set in the same insertion order, so the CSV header derived from the first
row describes every row; `toCSV` renders missing/undefined values as empty
cells and booleans as literal `true`/`false`. -/
theorem formatForExport_fixed_schema :
    (∀ (ds : List DetailRecord) (r : ExportRow),
        r ∈ formatForExport ds → r.map Prod.fst = exportFieldNames)
      ∧ (∀ ds : List DetailRecord, ds ≠ [] →
          csvHeaders (formatForExport ds) = exportFieldNames)
      ∧ csvCell (JsValue.b true) = "true"
      ∧ csvCell (JsValue.b false) = "false"
      ∧ csvCell JsValue.u = "" := by
  refine ⟨?_, ?_, rfl, rfl, rfl⟩
  · intro ds r hr
    unfold formatForExport at hr
    obtain ⟨d, _, rfl⟩ := List.mem_map.mp hr
    rfl
  · intro ds hds
    cases ds with
    | nil => exact absurd rfl hds
    | cons d t => rfl

/-- A concrete enriched detail record. -/
def demoDetail : DetailRecord :=
  { index := 1, listInfo := some (listInfoOf (demoDeposit 1)), modalInfo := some demoModal,
    error := none, timestamp := configTimestamp, extractedBy := some configUser }

/-- Witness for C9: a singleton batch's row has exactly the fixed field
names, which are also the CSV header. -/
theorem formatForExport_fixed_schema_witness :
    (formatRow demoDetail).map Prod.fst = exportFieldNames
      ∧ csvHeaders (formatForExport [demoDetail]) = exportFieldNames := by
  refine ⟨formatForExport_fixed_schema.1 [demoDetail] (formatRow demoDetail) ?_,
    formatForExport_fixed_schema.2.1 [demoDetail] ?_⟩
  · exact List.mem_singleton.mpr rfl
  · exact List.cons_ne_nil demoDetail []

/-- C10: a selector whose underlying query throws is never fatal: the
wrapped single-element query returns `none`, the wrapped multi-element
query returns `[]`, and container discovery with such a selector behaves
exactly as if the fixed selectors matched nothing, proceeding to the
generic fallback. -/
theorem invalid_selector_nonfatal :
    ∀ (root : Dom) (numTest : List Char → Bool),
      rawQuerySelectorAll Selector.invalid root
          = Except.error "SyntaxError: invalid selector"
        ∧ DOMUtils.querySelector Selector.invalid root = none
        ∧ DOMUtils.querySelectorAll Selector.invalid root = []
        ∧ findDepositContainers Selector.invalid numTest root
            = findDepositContainersGenericWith numTest root :=
  fun _ _ => ⟨rfl, rfl, rfl, rfl⟩

